import Mathlib

/-!
Verification of the BusTub `ReaderWriterLatch` (src/include/common/rwlatch.h).

The latch guards two fields, `reader_count_ : uint32_t` and
`writer_entered_ : bool`, behind a `std::mutex`; every operation body runs
with the mutex held, and `condition_variable::wait` releases the mutex while
parked.  We therefore embed each mutex-protected code section as an atomic
Lean function on the latch state, and the four public operations as a
labelled step relation over configurations of finitely many threads.
Machine arithmetic on `reader_count_` is `Nat` modulo `2^32`.
-/

namespace RWLatch

/-- `UINT_MAX`, the value of `ReaderWriterLatch::MAX_READERS`. -/
def MAX_READERS : Nat := 2 ^ 32 - 1

/-- The two fields guarded by `mutex_`: `reader_count_{0}` and
`writer_entered_{false}`. -/
structure LatchState where
  reader_count : Nat
  writer_entered : Bool
deriving DecidableEq, Repr

/-- The initial latch state given by the member initializers. -/
def initLatch : LatchState := { reader_count := 0, writer_entered := false }

/-- Wake actions a mutex-protected section can issue on the two condition
variables `writer_` and `reader_`. -/
inductive Notify
  | silent
  | oneWriterCV
  | oneReaderCV
  | allReaderCV
deriving DecidableEq, Repr

/-- Condition of `RLock`'s wait loop:
`writer_entered_ || reader_count_ == MAX_READERS`. -/
def rlockBlocked (s : LatchState) : Bool :=
  s.writer_entered || s.reader_count == MAX_READERS

/-- Body of `RLock` after the wait loop: `reader_count_++` (32-bit). -/
def rlockEnter (s : LatchState) : LatchState :=
  { s with reader_count := (s.reader_count + 1) % 2 ^ 32 }

/-- Condition of `WLock`'s first wait loop: `writer_entered_`. -/
def wlockBlocked1 (s : LatchState) : Bool :=
  s.writer_entered

/-- Body of `WLock` between the two loops: `writer_entered_ = true`. -/
def wlockSetWriter (s : LatchState) : LatchState :=
  { s with writer_entered := true }

/-- Condition of `WLock`'s second wait loop: `reader_count_ > 0`. -/
def wlockBlocked2 (s : LatchState) : Bool :=
  decide (0 < s.reader_count)

/-- `RUnlock`: decrement `reader_count_` (32-bit, so subtraction is addition
of `2^32 - 1` modulo `2^32`); if `writer_entered_` and the decremented count
is `0`, `writer_.notify_one()`; if not `writer_entered_` and the decremented
count is `MAX_READERS - 1`, `reader_.notify_one()`. -/
def RUnlock (s : LatchState) : LatchState × Notify :=
  let rc := (s.reader_count + (2 ^ 32 - 1)) % 2 ^ 32
  let n :=
    if s.writer_entered then
      if rc = 0 then Notify.oneWriterCV else Notify.silent
    else
      if rc = MAX_READERS - 1 then Notify.oneReaderCV else Notify.silent
  ({ s with reader_count := rc }, n)

/-- `WUnlock`: `writer_entered_ = false; reader_.notify_all()`. -/
def WUnlock (s : LatchState) : LatchState × Notify :=
  ({ s with writer_entered := false }, Notify.allReaderCV)

/-- Phase of a thread with respect to one latch instance.  `wantWrite` is
`WLock`'s first wait loop, `draining` its second (after `writer_entered_`
was set), `writing` the state after `WLock` returned; `wantRead` is
`RLock`'s wait loop and `reading` the state after `RLock` returned. -/
inductive TState
  | idle
  | wantWrite
  | draining
  | writing
  | wantRead
  | reading
deriving DecidableEq, Repr

/-- The condition variable a blocked thread in the given phase waits on:
`WLock`'s first loop and `RLock`'s loop wait on `reader_`, `WLock`'s
drain loop waits on `writer_`. -/
inductive CV
  | readerCV
  | writerCV
deriving DecidableEq, Repr

/-- Wait channel of each blocking phase, read off the three `wait` calls in
the source. -/
def waitChannel : TState → Option CV
  | TState.wantWrite => some CV.readerCV
  | TState.draining => some CV.writerCV
  | TState.wantRead => some CV.readerCV
  | _ => Option.none

/-- A configuration: the latch fields together with the phase of each of
`n` client threads. -/
structure Config (n : Nat) where
  latch : LatchState
  tstate : Fin n → TState

/-- The initial configuration: freshly constructed latch, no thread inside
any operation. -/
def init (n : Nat) : Config n :=
  { latch := initLatch, tstate := fun _ => TState.idle }

/-- Labels of the atomic steps.  `startR`/`startW` enter the operation,
`enterR` passes `RLock`'s loop and increments, `enterW` passes `WLock`'s
first loop and sets `writer_entered_`, `ownW` passes the drain loop so that
`WLock` returns, `exitR`/`exitW` are `RUnlock`/`WUnlock`. -/
inductive Label (n : Nat)
  | startR (t : Fin n)
  | enterR (t : Fin n)
  | exitR (t : Fin n)
  | startW (t : Fin n)
  | enterW (t : Fin n)
  | ownW (t : Fin n)
  | exitW (t : Fin n)

/-- One atomic step of the system: each mutex-protected section of the
source, guarded by the wait-loop condition of the phase it leaves.  A
`wait` releases the mutex, so a blocked thread simply has no enabled step;
the loop conditions reappear as guards of the phase-changing steps. -/
inductive Step : {n : Nat} → Config n → Label n → Config n → Prop
  | startR {n} {c : Config n} (t : Fin n) :
      c.tstate t = TState.idle →
      Step c (Label.startR t) { c with tstate := Function.update c.tstate t TState.wantRead }
  | enterR {n} {c : Config n} (t : Fin n) :
      c.tstate t = TState.wantRead →
      rlockBlocked c.latch = false →
      Step c (Label.enterR t)
        { latch := rlockEnter c.latch, tstate := Function.update c.tstate t TState.reading }
  | exitR {n} {c : Config n} (t : Fin n) :
      c.tstate t = TState.reading →
      Step c (Label.exitR t)
        { latch := (RUnlock c.latch).1, tstate := Function.update c.tstate t TState.idle }
  | startW {n} {c : Config n} (t : Fin n) :
      c.tstate t = TState.idle →
      Step c (Label.startW t) { c with tstate := Function.update c.tstate t TState.wantWrite }
  | enterW {n} {c : Config n} (t : Fin n) :
      c.tstate t = TState.wantWrite →
      wlockBlocked1 c.latch = false →
      Step c (Label.enterW t)
        { latch := wlockSetWriter c.latch, tstate := Function.update c.tstate t TState.draining }
  | ownW {n} {c : Config n} (t : Fin n) :
      c.tstate t = TState.draining →
      wlockBlocked2 c.latch = false →
      Step c (Label.ownW t) { c with tstate := Function.update c.tstate t TState.writing }
  | exitW {n} {c : Config n} (t : Fin n) :
      c.tstate t = TState.writing →
      Step c (Label.exitW t)
        { latch := (WUnlock c.latch).1, tstate := Function.update c.tstate t TState.idle }

/-- Reachability from the initial configuration. -/
inductive Reachable : {n : Nat} → Config n → Prop
  | init {n} : Reachable (init n)
  | step {n} {c c' : Config n} {l : Label n} : Reachable c → Step c l c' → Reachable c'

/-- The set of threads currently holding a read latch. -/
def readersOf {n : Nat} (c : Config n) : Finset (Fin n) :=
  Finset.univ.filter (fun t => c.tstate t = TState.reading)

/-- A thread is an active writer when it has set `writer_entered_` and not
yet released: either still draining readers or holding the write latch. -/
def activeW {n : Nat} (c : Config n) (t : Fin n) : Prop :=
  c.tstate t = TState.draining ∨ c.tstate t = TState.writing

/-- The inductive invariant of the latch: the reader count counts exactly
the threads holding a read latch and stays a 32-bit value; `writer_entered_`
is set exactly while some thread is an active writer; active writers are
unique; a thread holding the write latch implies a drained reader count. -/
def Inv {n : Nat} (c : Config n) : Prop :=
  c.latch.reader_count = (readersOf c).card
  ∧ c.latch.reader_count < 2 ^ 32
  ∧ (c.latch.writer_entered = false → ∀ t, ¬ activeW c t)
  ∧ (c.latch.writer_entered = true → ∃ t, activeW c t)
  ∧ (∀ t u, activeW c t → activeW c u → t = u)
  ∧ (∀ t, c.tstate t = TState.writing → c.latch.reader_count = 0)

/-- The state transformer of `RUnlock`, forgetting the notification. -/
def runlockState (s : LatchState) : LatchState := (RUnlock s).1

/-- The two contenders in the destruction scenario of claim C8: a thread
inside a release call, and the thread running the destructor. -/
inductive Holder
  | releaser
  | dtor
deriving DecidableEq, Repr

/-- Lifecycle state for the destruction scenario: who holds `mutex_`,
whether the in-flight release call is inside its mutex-guarded critical
section, and whether the destructor has finalized the object. -/
structure LifeConfig where
  mutexHolder : Option Holder
  releaserInCS : Bool
  destroyed : Bool
deriving DecidableEq, Repr

/-- Initially nobody holds `mutex_` and the object is alive. -/
def lifeInit : LifeConfig :=
  { mutexHolder := Option.none, releaserInCS := false, destroyed := false }

/-- Lifecycle steps.  The release call acquires `mutex_` (its `lock_guard`),
runs its critical section and releases.  The destructor body
`std::lock_guard<mutex_t> guard(mutex_);` acquires `mutex_` - blocking
while any other thread holds it - releases it at end of scope, and the
object is finalized. -/
inductive LifeStep : LifeConfig → LifeConfig → Prop
  | releaserAcquire {c : LifeConfig} :
      c.mutexHolder = Option.none → c.destroyed = false →
      LifeStep c { mutexHolder := some Holder.releaser, releaserInCS := true,
                   destroyed := false }
  | releaserRelease {c : LifeConfig} :
      c.mutexHolder = some Holder.releaser →
      LifeStep c { mutexHolder := Option.none, releaserInCS := false,
                   destroyed := c.destroyed }
  | dtorRun {c : LifeConfig} :
      c.mutexHolder = Option.none →
      LifeStep c { mutexHolder := Option.none, releaserInCS := c.releaserInCS,
                   destroyed := true }

/-- Reachability in the lifecycle model. -/
inductive LifeReachable : LifeConfig → Prop
  | init : LifeReachable lifeInit
  | step {c c' : LifeConfig} : LifeReachable c → LifeStep c c' → LifeReachable c'

/-- A lifecycle state in which the destructor has run. -/
def c8cfg : LifeConfig :=
  { mutexHolder := Option.none, releaserInCS := false, destroyed := true }

/-- A one-thread configuration whose thread is in `WLock`'s drain loop. -/
def cDrain : Config 1 :=
  { latch := { reader_count := 0, writer_entered := true },
    tstate := fun _ => TState.draining }

/-- The configuration after `cDrain`'s thread passes the drain loop. -/
def cDrain' : Config 1 :=
  { latch := cDrain.latch, tstate := Function.update cDrain.tstate 0 TState.writing }

/-- A concrete execution of one thread running `WLock` from the initial
configuration: it enters, passes the first wait loop setting
`writer_entered_`, and passes the (empty) drain loop. -/
def execCfg : Nat → Config 1
  | 0 => init 1
  | 1 => Config.mk initLatch (Function.update (init 1).tstate 0 TState.wantWrite)
  | 2 => Config.mk (wlockSetWriter initLatch)
      (Function.update
        (Function.update (init 1).tstate 0 TState.wantWrite) 0 TState.draining)
  | _ + 3 => Config.mk (wlockSetWriter initLatch)
      (Function.update (Function.update
        (Function.update (init 1).tstate 0 TState.wantWrite) 0 TState.draining) 0
        TState.writing)

/-- The labels of the execution `execCfg`. -/
def execLbl : Nat → Label 1
  | 0 => Label.startW 0
  | 1 => Label.enterW 0
  | _ + 2 => Label.ownW 0

/-- Two threads acquiring read latches: after thread 0 started `RLock`. -/
def rcfg1 : Config 2 :=
  Config.mk initLatch (Function.update (init 2).tstate 0 TState.wantRead)

/-- ... after thread 0 was admitted. -/
def rcfg2 : Config 2 :=
  Config.mk (rlockEnter initLatch) (Function.update rcfg1.tstate 0 TState.reading)

/-- ... after thread 1 started `RLock` as well. -/
def rcfg3 : Config 2 :=
  Config.mk (rlockEnter initLatch) (Function.update rcfg2.tstate 1 TState.wantRead)

/-- ... after thread 1 was admitted too: two concurrent readers. -/
def rcfg4 : Config 2 :=
  Config.mk (rlockEnter (rlockEnter initLatch))
    (Function.update rcfg3.tstate 1 TState.reading)

lemma mem_readersOf {n : Nat} {c : Config n} {t : Fin n} :
    t ∈ readersOf c ↔ c.tstate t = TState.reading := by
  simp [readersOf]

lemma readersOf_mk {n : Nat} (L : LatchState) (f : Fin n → TState) :
    readersOf ⟨L, f⟩ = Finset.univ.filter (fun t => f t = TState.reading) := rfl

lemma readersOf_update_of_ne {n : Nat} (c : Config n) (L : LatchState) (t : Fin n)
    (st : TState) (h1 : st ≠ TState.reading) (h2 : c.tstate t ≠ TState.reading) :
    readersOf ⟨L, Function.update c.tstate t st⟩ = readersOf c := by
  ext u
  simp only [readersOf_mk, readersOf, Finset.mem_filter, Finset.mem_univ, true_and,
    Function.update_apply]
  by_cases hu : u = t
  · subst hu; simp [h1, h2]
  · simp [hu]

lemma readersOf_update_reading {n : Nat} (c : Config n) (L : LatchState) (t : Fin n)
    (h2 : c.tstate t ≠ TState.reading) :
    readersOf ⟨L, Function.update c.tstate t TState.reading⟩ = insert t (readersOf c) := by
  ext u
  simp only [readersOf_mk, readersOf, Finset.mem_filter, Finset.mem_univ, true_and,
    Function.update_apply, Finset.mem_insert]
  by_cases hu : u = t
  · subst hu; simp
  · simp [hu]

lemma readersOf_update_from_reading {n : Nat} (c : Config n) (L : LatchState) (t : Fin n)
    (st : TState) (h1 : st ≠ TState.reading) :
    readersOf ⟨L, Function.update c.tstate t st⟩ = (readersOf c).erase t := by
  ext u
  simp only [readersOf_mk, readersOf, Finset.mem_filter, Finset.mem_univ, true_and,
    Function.update_apply, Finset.mem_erase]
  by_cases hu : u = t
  · subst hu; simp [h1]
  · simp [hu]

lemma activeW_mk {n : Nat} (L : LatchState) (f : Fin n → TState) (u : Fin n) :
    activeW ⟨L, f⟩ u ↔ (f u = TState.draining ∨ f u = TState.writing) := Iff.rfl

lemma activeW_update {n : Nat} (c : Config n) (L : LatchState) (t : Fin n) (st : TState)
    (u : Fin n) :
    activeW ⟨L, Function.update c.tstate t st⟩ u ↔
      (if u = t then (st = TState.draining ∨ st = TState.writing) else activeW c u) := by
  by_cases hu : u = t
  · subst hu; simp [activeW_mk, activeW, Function.update_apply]
  · simp [activeW_mk, activeW, Function.update_apply, hu]

lemma dec32 (a : Nat) (h1 : 0 < a) (h2 : a < 2 ^ 32) :
    (a + (2 ^ 32 - 1)) % 2 ^ 32 = a - 1 := by
  have he : a + (2 ^ 32 - 1) = (a - 1) + 1 * 2 ^ 32 := by omega
  rw [he, Nat.add_mul_mod_self_right]
  exact Nat.mod_eq_of_lt (by omega)

lemma inc32 (a : Nat) (h : a + 1 < 2 ^ 32) : (a + 1) % 2 ^ 32 = a + 1 :=
  Nat.mod_eq_of_lt h

lemma latch_mk {n : Nat} (L : LatchState) (f : Fin n → TState) :
    (Config.mk L f).latch = L := rfl

lemma tstate_mk {n : Nat} (L : LatchState) (f : Fin n → TState) :
    (Config.mk L f).tstate = f := rfl

lemma rlockEnter_writer (s : LatchState) :
    (rlockEnter s).writer_entered = s.writer_entered := by cases s; rfl

lemma rlockEnter_count (s : LatchState) :
    (rlockEnter s).reader_count = (s.reader_count + 1) % 2 ^ 32 := by cases s; rfl

lemma RUnlock_fst_writer (s : LatchState) :
    (RUnlock s).1.writer_entered = s.writer_entered := by cases s; rfl

lemma RUnlock_fst_count (s : LatchState) :
    (RUnlock s).1.reader_count = (s.reader_count + (2 ^ 32 - 1)) % 2 ^ 32 := by cases s; rfl

lemma wlockSetWriter_writer (s : LatchState) :
    (wlockSetWriter s).writer_entered = true := by cases s; rfl

lemma wlockSetWriter_count (s : LatchState) :
    (wlockSetWriter s).reader_count = s.reader_count := by cases s; rfl

lemma WUnlock_fst_writer (s : LatchState) :
    (WUnlock s).1.writer_entered = false := by cases s; rfl

lemma WUnlock_fst_count (s : LatchState) :
    (WUnlock s).1.reader_count = s.reader_count := by cases s; rfl

lemma rlockBlocked_false_iff (s : LatchState) :
    rlockBlocked s = false ↔ (s.writer_entered = false ∧ s.reader_count ≠ MAX_READERS) := by
  simp [rlockBlocked]

lemma inv_init (n : Nat) : Inv (init n) := by
  refine ⟨?_, ?_, ?_, ?_, ?_, ?_⟩
  · simp [init, initLatch, readersOf]
  · norm_num [init, initLatch]
  · intro _ t hact
    rcases hact with h | h <;> simp [init] at h
  · intro h; simp [init, initLatch] at h
  · intro t u ht _
    rcases ht with h | h <;> simp [init] at h
  · intro t ht; simp [init] at ht

lemma inv_update_inactive {n : Nat} {c : Config n} (t : Fin n) (st : TState)
    (hinv : Inv c) (hnr : st ≠ TState.reading) (hnd : st ≠ TState.draining)
    (hnw : st ≠ TState.writing) (hor : c.tstate t ≠ TState.reading)
    (hoa : ¬ activeW c t) :
    Inv (Config.mk c.latch (Function.update c.tstate t st)) := by
  obtain ⟨h1, h2, h3, h4, h5, h6⟩ := hinv
  refine ⟨?_, h2, ?_, ?_, ?_, ?_⟩
  · simp only [latch_mk]
    rw [readersOf_update_of_ne c c.latch t st hnr hor]
    exact h1
  · intro hw u hact
    rw [activeW_update] at hact
    by_cases hu : u = t
    · rw [if_pos hu] at hact
      exact hact.elim (fun h => hnd h) (fun h => hnw h)
    · rw [if_neg hu] at hact
      exact h3 hw u hact
  · intro hw
    obtain ⟨u, hu⟩ := h4 hw
    have hut : u ≠ t := fun he => hoa (he ▸ hu)
    exact ⟨u, by rw [activeW_update, if_neg hut]; exact hu⟩
  · intro u v hu hv
    rw [activeW_update] at hu hv
    by_cases hut : u = t
    · rw [if_pos hut] at hu
      exact absurd hu (by simp [hnd, hnw])
    · by_cases hvt : v = t
      · rw [if_pos hvt] at hv
        exact absurd hv (by simp [hnd, hnw])
      · rw [if_neg hut] at hu
        rw [if_neg hvt] at hv
        exact h5 u v hu hv
  · intro u hu
    have hu' : Function.update c.tstate t st u = TState.writing := hu
    simp only [latch_mk]
    by_cases hut : u = t
    · rw [Function.update_apply, if_pos hut] at hu'
      exact absurd hu' hnw
    · rw [Function.update_apply, if_neg hut] at hu'
      exact h6 u hu'

lemma inv_step {n : Nat} {c c' : Config n} {l : Label n}
    (hinv : Inv c) (hs : Step c l c') : Inv c' := by
  obtain ⟨h1, h2, h3, h4, h5, h6⟩ := hinv
  cases hs with
  | startR t ht =>
      exact inv_update_inactive t TState.wantRead ⟨h1, h2, h3, h4, h5, h6⟩
        (by simp) (by simp) (by simp) (by simp [ht])
        (by rw [activeW, ht]; simp)
  | startW t ht =>
      exact inv_update_inactive t TState.wantWrite ⟨h1, h2, h3, h4, h5, h6⟩
        (by simp) (by simp) (by simp) (by simp [ht])
        (by rw [activeW, ht]; simp)
  | enterR t ht hg =>
      obtain ⟨hwe, hne⟩ := (rlockBlocked_false_iff c.latch).mp hg
      have hlt : c.latch.reader_count + 1 < 2 ^ 32 := by
        have : c.latch.reader_count ≠ 2 ^ 32 - 1 := by
          simpa [MAX_READERS] using hne
        omega
      have hnotin : t ∉ readersOf c := by
        rw [mem_readersOf, ht]; simp
      refine ⟨?_, ?_, ?_, ?_, ?_, ?_⟩
      · simp only [latch_mk]
        rw [readersOf_update_reading c _ t (by rw [ht]; simp),
          Finset.card_insert_of_not_mem hnotin, rlockEnter_count, inc32 _ hlt, h1]
      · simp only [latch_mk]
        rw [rlockEnter_count, inc32 _ hlt]
        exact hlt
      · intro _ u hact
        rw [activeW_update] at hact
        by_cases hu : u = t
        · rw [if_pos hu] at hact
          exact hact.elim (by simp) (by simp)
        · rw [if_neg hu] at hact
          exact h3 hwe u hact
      · intro hw
        rw [latch_mk, rlockEnter_writer, hwe] at hw
        cases hw
      · intro u v hu hv
        rw [activeW_update] at hu hv
        by_cases hut : u = t
        · rw [if_pos hut] at hu
          exact absurd hu (by simp)
        · by_cases hvt : v = t
          · rw [if_pos hvt] at hv
            exact absurd hv (by simp)
          · rw [if_neg hut] at hu
            rw [if_neg hvt] at hv
            exact h5 u v hu hv
      · intro u hu
        have hu' : Function.update c.tstate t TState.reading u = TState.writing := hu
        by_cases hut : u = t
        · rw [Function.update_apply, if_pos hut] at hu'
          cases hu'
        · rw [Function.update_apply, if_neg hut] at hu'
          exact absurd (Or.inr hu' : activeW c u) (h3 hwe u)
  | exitR t ht =>
      have htin : t ∈ readersOf c := mem_readersOf.mpr ht
      have hpos : 0 < c.latch.reader_count := by
        rw [h1]; exact Finset.card_pos.mpr ⟨t, htin⟩
      refine ⟨?_, ?_, ?_, ?_, ?_, ?_⟩
      · simp only [latch_mk]
        rw [readersOf_update_from_reading c _ t TState.idle (by simp),
          Finset.card_erase_of_mem htin, RUnlock_fst_count, dec32 _ hpos h2, h1]
      · simp only [latch_mk]
        rw [RUnlock_fst_count, dec32 _ hpos h2]
        omega
      · intro hw u hact
        rw [latch_mk, RUnlock_fst_writer] at hw
        rw [activeW_update] at hact
        by_cases hu : u = t
        · rw [if_pos hu] at hact
          exact hact.elim (by simp) (by simp)
        · rw [if_neg hu] at hact
          exact h3 hw u hact
      · intro hw
        rw [latch_mk, RUnlock_fst_writer] at hw
        obtain ⟨u, hu⟩ := h4 hw
        have hut : u ≠ t := by
          intro he; subst he
          rcases hu with h | h <;> rw [ht] at h <;> cases h
        exact ⟨u, by rw [activeW_update, if_neg hut]; exact hu⟩
      · intro u v hu hv
        rw [activeW_update] at hu hv
        by_cases hut : u = t
        · rw [if_pos hut] at hu
          exact absurd hu (by simp)
        · by_cases hvt : v = t
          · rw [if_pos hvt] at hv
            exact absurd hv (by simp)
          · rw [if_neg hut] at hu
            rw [if_neg hvt] at hv
            exact h5 u v hu hv
      · intro u hu
        have hu' : Function.update c.tstate t TState.idle u = TState.writing := hu
        by_cases hut : u = t
        · rw [Function.update_apply, if_pos hut] at hu'
          cases hu'
        · rw [Function.update_apply, if_neg hut] at hu'
          have : c.latch.reader_count = 0 := h6 u hu'
          omega
  | enterW t ht hg =>
      have hwe : c.latch.writer_entered = false := hg
      refine ⟨?_, ?_, ?_, ?_, ?_, ?_⟩
      · simp only [latch_mk]
        rw [readersOf_update_of_ne c _ t TState.draining (by simp) (by simp [ht]),
          wlockSetWriter_count]
        exact h1
      · simp only [latch_mk]
        rw [wlockSetWriter_count]
        exact h2
      · intro hw
        rw [latch_mk, wlockSetWriter_writer] at hw
        cases hw
      · intro _
        exact ⟨t, by rw [activeW_update, if_pos rfl]; left; rfl⟩
      · intro u v hu hv
        rw [activeW_update] at hu hv
        by_cases hut : u = t
        · by_cases hvt : v = t
          · rw [hut, hvt]
          · rw [if_neg hvt] at hv
            exact absurd hv (h3 hwe v)
        · rw [if_neg hut] at hu
          exact absurd hu (h3 hwe u)
      · intro u hu
        have hu' : Function.update c.tstate t TState.draining u = TState.writing := hu
        by_cases hut : u = t
        · rw [Function.update_apply, if_pos hut] at hu'
          cases hu'
        · rw [Function.update_apply, if_neg hut] at hu'
          exact absurd (Or.inr hu' : activeW c u) (h3 hwe u)
  | ownW t ht hg =>
      have hrc0 : c.latch.reader_count = 0 := by
        have := of_decide_eq_false hg
        omega
      refine ⟨?_, ?_, ?_, ?_, ?_, ?_⟩
      · simp only [latch_mk]
        rw [readersOf_update_of_ne c _ t TState.writing (by simp) ?_]
        · exact h1
        · rw [ht]; simp
      · exact h2
      · intro hw u _
        exact absurd (Or.inl ht : activeW c t) (h3 hw t)
      · intro _
        exact ⟨t, by rw [activeW_update, if_pos rfl]; right; rfl⟩
      · intro u v hu hv
        rw [activeW_update] at hu hv
        by_cases hut : u = t
        · by_cases hvt : v = t
          · rw [hut, hvt]
          · rw [if_neg hvt] at hv
            have := h5 v t hv (Or.inl ht)
            exact absurd this hvt
        · rw [if_neg hut] at hu
          have := h5 u t hu (Or.inl ht)
          exact absurd this hut
      · intro u _
        exact hrc0
  | exitW t ht =>
      refine ⟨?_, ?_, ?_, ?_, ?_, ?_⟩
      · simp only [latch_mk]
        rw [readersOf_update_of_ne c _ t TState.idle (by simp) (by simp [ht]),
          WUnlock_fst_count]
        exact h1
      · simp only [latch_mk]
        rw [WUnlock_fst_count]
        exact h2
      · intro _ u hact
        rw [activeW_update] at hact
        by_cases hu : u = t
        · rw [if_pos hu] at hact
          exact hact.elim (by simp) (by simp)
        · rw [if_neg hu] at hact
          have := h5 u t hact (Or.inr ht)
          exact absurd this hu
      · intro hw
        rw [latch_mk, WUnlock_fst_writer] at hw
        cases hw
      · intro u v hu hv
        rw [activeW_update] at hu hv
        by_cases hut : u = t
        · rw [if_pos hut] at hu
          exact absurd hu (by simp)
        · rw [if_neg hut] at hu
          have := h5 u t hu (Or.inr ht)
          exact absurd this hut
      · intro u hu
        have hu' : Function.update c.tstate t TState.idle u = TState.writing := hu
        by_cases hut : u = t
        · rw [Function.update_apply, if_pos hut] at hu'
          cases hu'
        · rw [Function.update_apply, if_neg hut] at hu'
          have := h5 u t (Or.inr hu') (Or.inr ht)
          exact absurd this hut

/-- Every reachable configuration satisfies the inductive invariant. -/
lemma reachable_inv {n : Nat} {c : Config n} (h : Reachable c) : Inv c := by
  induction h with
  | init => exact inv_init n
  | step _ hs ih => exact inv_step ih hs

lemma RUnlock_snd (s : LatchState) :
    (RUnlock s).2 =
      if s.writer_entered then
        (if (s.reader_count + (2 ^ 32 - 1)) % 2 ^ 32 = 0 then Notify.oneWriterCV
         else Notify.silent)
      else
        (if (s.reader_count + (2 ^ 32 - 1)) % 2 ^ 32 = MAX_READERS - 1 then
           Notify.oneReaderCV
         else Notify.silent) := by
  cases s; rfl

lemma runlockState_eq (s : LatchState) :
    runlockState s =
      { reader_count := (s.reader_count + (2 ^ 32 - 1)) % 2 ^ 32,
        writer_entered := s.writer_entered } := by
  cases s; rfl

lemma step_enterR_inv {n : Nat} {c c' : Config n} {t : Fin n}
    (h : Step c (Label.enterR t) c') :
    c.tstate t = TState.wantRead ∧ rlockBlocked c.latch = false
    ∧ c' = Config.mk (rlockEnter c.latch) (Function.update c.tstate t TState.reading) := by
  cases h with
  | enterR t ht hg => exact ⟨ht, hg, rfl⟩

lemma step_enterW_inv {n : Nat} {c c' : Config n} {t : Fin n}
    (h : Step c (Label.enterW t) c') :
    c.tstate t = TState.wantWrite ∧ c.latch.writer_entered = false
    ∧ c' = Config.mk (wlockSetWriter c.latch)
        (Function.update c.tstate t TState.draining) := by
  cases h with
  | enterW t ht hg => exact ⟨ht, hg, rfl⟩

lemma step_ownW_inv {n : Nat} {c c' : Config n} {t : Fin n}
    (h : Step c (Label.ownW t) c') :
    c.tstate t = TState.draining ∧ c.latch.reader_count = 0
    ∧ c' = Config.mk c.latch (Function.update c.tstate t TState.writing) := by
  cases h with
  | ownW t ht hg =>
      refine ⟨ht, ?_, rfl⟩
      have := of_decide_eq_false hg
      omega

lemma step_exitW_inv {n : Nat} {c c' : Config n} {t : Fin n}
    (h : Step c (Label.exitW t) c') :
    c.tstate t = TState.writing
    ∧ c' = Config.mk (WUnlock c.latch).1 (Function.update c.tstate t TState.idle) := by
  cases h with
  | exitW t ht => exact ⟨ht, rfl⟩

/-- Any step that is not a `WUnlock` leaves a set `writer_entered_` set. -/
lemma writer_persists {n : Nat} {c c' : Config n} {l : Label n} (hs : Step c l c')
    (hwe : c.latch.writer_entered = true) (hna : ∀ u, l ≠ Label.exitW u) :
    c'.latch.writer_entered = true := by
  cases hs with
  | startR t ht => exact hwe
  | enterR t ht hg =>
      obtain ⟨hw, _⟩ := (rlockBlocked_false_iff c.latch).mp hg
      rw [hw] at hwe; cases hwe
  | exitR t ht =>
      rw [latch_mk, RUnlock_fst_writer]; exact hwe
  | startW t ht => exact hwe
  | enterW t ht hg =>
      rw [latch_mk, wlockSetWriter_writer]
  | ownW t ht hg => exact hwe
  | exitW t ht => exact absurd rfl (hna t)

/-- Any step that is not a `WUnlock` keeps the active writer active. -/
lemma active_persists {n : Nat} {c c' : Config n} {l : Label n} {w : Fin n}
    (hs : Step c l c') (hact : activeW c w) (hna : ∀ u, l ≠ Label.exitW u) :
    activeW c' w := by
  cases hs with
  | startR t ht =>
      have hne : w ≠ t := by
        intro he; subst he
        rcases hact with h | h <;> rw [ht] at h <;> cases h
      rw [activeW_update, if_neg hne]; exact hact
  | enterR t ht hg =>
      have hne : w ≠ t := by
        intro he; subst he
        rcases hact with h | h <;> rw [ht] at h <;> cases h
      rw [activeW_update, if_neg hne]; exact hact
  | exitR t ht =>
      have hne : w ≠ t := by
        intro he; subst he
        rcases hact with h | h <;> rw [ht] at h <;> cases h
      rw [activeW_update, if_neg hne]; exact hact
  | startW t ht =>
      have hne : w ≠ t := by
        intro he; subst he
        rcases hact with h | h <;> rw [ht] at h <;> cases h
      rw [activeW_update, if_neg hne]; exact hact
  | enterW t ht hg =>
      have hne : w ≠ t := by
        intro he; subst he
        rcases hact with h | h <;> rw [ht] at h <;> cases h
      rw [activeW_update, if_neg hne]; exact hact
  | ownW t ht hg =>
      rw [activeW_update]
      by_cases hwt : w = t
      · rw [if_pos hwt]; right; rfl
      · rw [if_neg hwt]; exact hact
  | exitW t ht => exact absurd rfl (hna t)

/-- All configurations along a stepped execution are reachable. -/
lemma reachable_along {n : Nat} {cfg : Nat → Config n} {lbl : Nat → Label n} {j : Nat}
    (h0 : Reachable (cfg 0)) (hsteps : ∀ k, k < j → Step (cfg k) (lbl k) (cfg (k + 1))) :
    ∀ k, k ≤ j → Reachable (cfg k) := by
  intro k
  induction k with
  | zero => intro _; exact h0
  | succ m ih =>
      intro h
      exact Reachable.step (ih (by omega)) (hsteps m (by omega))

lemma rlock_iter (k : Nat) (hk : k ≤ MAX_READERS) :
    rlockEnter^[k] initLatch = { reader_count := k, writer_entered := false } := by
  induction k with
  | zero => rfl
  | succ m ih =>
      have hk' : m ≤ MAX_READERS := le_trans (Nat.le_succ m) hk
      have hlt : m + 1 < 2 ^ 32 := by
        have := hk; rw [MAX_READERS] at this; omega
      rw [Function.iterate_succ_apply', ih hk']
      show rlockEnter { reader_count := m, writer_entered := false } = _
      rw [rlockEnter]
      simp only
      rw [inc32 m hlt]

lemma runlock_iter (m k : Nat) (hk : k ≤ m) (hm : m < 2 ^ 32) :
    runlockState^[k] { reader_count := m, writer_entered := false }
      = { reader_count := m - k, writer_entered := false } := by
  induction k with
  | zero => simp
  | succ p ih =>
      have h1 : 0 < m - p := by omega
      have h2 : m - p < 2 ^ 32 := by omega
      have h3 : m - p - 1 = m - (p + 1) := by omega
      rw [Function.iterate_succ_apply', ih (by omega), runlockState_eq]
      simp only
      rw [dec32 (m - p) h1 h2, h3]

/-- C5: `RUnlock` decrements the reader count by exactly one; it notifies
one writer-waiter exactly when a writer is active and the decremented count
is zero, notifies one reader-waiter exactly when no writer is active and
the count was at the `MAX_READERS` sentinel before decrementing, and
notifies nobody in every other case. -/
theorem c5_runlock_wake_policy (s : LatchState)
    (hpos : 0 < s.reader_count) (hlt : s.reader_count < 2 ^ 32) :
    (RUnlock s).1.reader_count = s.reader_count - 1
    ∧ ((RUnlock s).2 = Notify.oneWriterCV ↔
        (s.writer_entered = true ∧ s.reader_count - 1 = 0))
    ∧ ((RUnlock s).2 = Notify.oneReaderCV ↔
        (s.writer_entered = false ∧ s.reader_count = MAX_READERS))
    ∧ ((RUnlock s).2 = Notify.silent ↔
        (¬(s.writer_entered = true ∧ s.reader_count - 1 = 0)
         ∧ ¬(s.writer_entered = false ∧ s.reader_count = MAX_READERS))) := by
  have hdec := dec32 s.reader_count hpos hlt
  have hmax : s.reader_count - 1 = MAX_READERS - 1 ↔ s.reader_count = MAX_READERS := by
    rw [MAX_READERS]; omega
  refine ⟨?_, ?_, ?_, ?_⟩
  · rw [RUnlock_fst_count, hdec]
  · rw [RUnlock_snd, hdec]
    cases hw : s.writer_entered
    · by_cases h0 : s.reader_count - 1 = MAX_READERS - 1 <;> simp [h0]
    · by_cases h0 : s.reader_count - 1 = 0 <;> simp [h0]
  · rw [RUnlock_snd, hdec]
    cases hw : s.writer_entered
    · by_cases h0 : s.reader_count - 1 = MAX_READERS - 1
      · simp [h0, hmax.mp h0]
      · simp [h0]
        intro he
        exact absurd (hmax.mpr he) h0
    · by_cases h0 : s.reader_count - 1 = 0 <;> simp [h0]
  · rw [RUnlock_snd, hdec]
    cases hw : s.writer_entered
    · by_cases h0 : s.reader_count - 1 = MAX_READERS - 1
      · simp [h0, hmax.mp h0]
      · simp [h0]
        intro he
        exact absurd (hmax.mpr he) h0
    · by_cases h0 : s.reader_count - 1 = 0 <;> simp [h0]

/-- Witness for C5 at a single reader releasing under an active writer. -/
theorem c5_runlock_wake_policy_witness :
    (0 : Nat) < 1 ∧ (1 : Nat) < 2 ^ 32
    ∧ ((RUnlock { reader_count := 1, writer_entered := true }).1.reader_count = 1 - 1
       ∧ ((RUnlock { reader_count := 1, writer_entered := true }).2 = Notify.oneWriterCV ↔
           ((true : Bool) = true ∧ (1 : Nat) - 1 = 0))
       ∧ ((RUnlock { reader_count := 1, writer_entered := true }).2 = Notify.oneReaderCV ↔
           ((true : Bool) = false ∧ (1 : Nat) = MAX_READERS))
       ∧ ((RUnlock { reader_count := 1, writer_entered := true }).2 = Notify.silent ↔
           (¬((true : Bool) = true ∧ (1 : Nat) - 1 = 0)
            ∧ ¬((true : Bool) = false ∧ (1 : Nat) = MAX_READERS)))) :=
  ⟨by decide, by norm_num,
   c5_runlock_wake_policy { reader_count := 1, writer_entered := true }
     (by decide) (by norm_num)⟩

/-- C6: `WUnlock` clears `writer_entered_` and issues a notify-all on the
`reader_` condition variable; both writers blocked in `WLock`'s first wait
loop and readers blocked in `RLock`'s wait loop wait on exactly that
channel, so all of them are woken to contend (the drain loop waits on
`writer_` instead). -/
theorem c6_wunlock_wakes_all (s : LatchState) :
    (WUnlock s).1.writer_entered = false
    ∧ (WUnlock s).1.reader_count = s.reader_count
    ∧ (WUnlock s).2 = Notify.allReaderCV
    ∧ waitChannel TState.wantWrite = some CV.readerCV
    ∧ waitChannel TState.wantRead = some CV.readerCV
    ∧ waitChannel TState.draining = some CV.writerCV :=
  ⟨WUnlock_fst_writer s, WUnlock_fst_count s, rfl, rfl, rfl, rfl⟩

/-- C9: an unmatched `RUnlock` at reader count `0` with no writer wraps the
32-bit counter to `2^32 - 1`, which is exactly the `MAX_READERS` sentinel;
the no-writer branch notifies nobody, since the post-decrement value is not
`MAX_READERS - 1`; and the resulting state keeps `RLock`'s wait condition
true, so every further read admission is refused. -/
theorem c9_runlock_underflow :
    (RUnlock { reader_count := 0, writer_entered := false }).1.reader_count = 2 ^ 32 - 1
    ∧ MAX_READERS = 2 ^ 32 - 1
    ∧ (RUnlock { reader_count := 0, writer_entered := false }).1.reader_count = MAX_READERS
    ∧ (RUnlock { reader_count := 0, writer_entered := false }).2 = Notify.silent
    ∧ rlockBlocked (RUnlock { reader_count := 0, writer_entered := false }).1 = true := by
  refine ⟨?_, rfl, ?_, ?_, ?_⟩
  · rw [RUnlock_fst_count]
    norm_num
  · rw [RUnlock_fst_count, MAX_READERS]
    norm_num
  · rw [RUnlock_snd]
    norm_num [MAX_READERS]
  · have h1 : (RUnlock { reader_count := 0, writer_entered := false }).1.reader_count
        = MAX_READERS := by
      rw [RUnlock_fst_count, MAX_READERS]
      norm_num
    simp [rlockBlocked, h1]

/-- C10: frame property - `RLock` and `RUnlock` leave `writer_entered_`
unchanged, `WLock`'s flag-setting step and `WUnlock` leave `reader_count_`
unchanged, and `WLock`'s drain step mutates no latch field at all. -/
theorem c10_frame {n : Nat} (s : LatchState) (c c' : Config n) (t : Fin n)
    (hd : Step c (Label.ownW t) c') :
    (rlockEnter s).writer_entered = s.writer_entered
    ∧ (RUnlock s).1.writer_entered = s.writer_entered
    ∧ (wlockSetWriter s).reader_count = s.reader_count
    ∧ (WUnlock s).1.reader_count = s.reader_count
    ∧ c'.latch = c.latch := by
  refine ⟨rlockEnter_writer s, RUnlock_fst_writer s, wlockSetWriter_count s,
    WUnlock_fst_count s, ?_⟩
  obtain ⟨_, _, hc⟩ := step_ownW_inv hd
  rw [hc, latch_mk]

/-- Witness for C10 at the drain step of `cDrain`'s thread. -/
theorem c10_frame_witness :
    (rlockEnter initLatch).writer_entered = initLatch.writer_entered
    ∧ (RUnlock initLatch).1.writer_entered = initLatch.writer_entered
    ∧ (wlockSetWriter initLatch).reader_count = initLatch.reader_count
    ∧ (WUnlock initLatch).1.reader_count = initLatch.reader_count
    ∧ cDrain'.latch = cDrain.latch :=
  c10_frame initLatch cDrain cDrain' 0 (Step.ownW 0 rfl (by decide))

/-- C1: in every reachable configuration, a writer past the drain phase
(holding the write latch) coexists only with reader count `0` and no thread
holding a read latch; at most one thread is an active writer at a time; and
`writer_entered_` together with a positive reader count happens only while
the admitted writer is still in its drain phase. -/
theorem c1_mutual_exclusion {n : Nat} (c : Config n) (h : Reachable c) :
    (∀ t, c.tstate t = TState.writing →
      c.latch.reader_count = 0 ∧ ∀ u, c.tstate u ≠ TState.reading)
    ∧ (∀ t u, activeW c t → activeW c u → t = u)
    ∧ (c.latch.writer_entered = true → 0 < c.latch.reader_count →
        ∃ t, c.tstate t = TState.draining) := by
  obtain ⟨h1, h2, h3, h4, h5, h6⟩ := reachable_inv h
  refine ⟨?_, h5, ?_⟩
  · intro t ht
    have hrc := h6 t ht
    refine ⟨hrc, ?_⟩
    intro u hu
    have hmem : u ∈ readersOf c := mem_readersOf.mpr hu
    have hcard : 0 < (readersOf c).card := Finset.card_pos.mpr ⟨u, hmem⟩
    rw [← h1, hrc] at hcard
    exact absurd hcard (lt_irrefl 0)
  · intro hwe hpos
    obtain ⟨t, hact⟩ := h4 hwe
    rcases hact with hd | hw
    · exact ⟨t, hd⟩
    · have := h6 t hw
      omega

/-- Witness for C1 at the initial configuration. -/
theorem c1_mutual_exclusion_witness :
    (∀ t, (init 1).tstate t = TState.writing →
      (init 1).latch.reader_count = 0 ∧ ∀ u, (init 1).tstate u ≠ TState.reading)
    ∧ (∀ t u, activeW (init 1) t → activeW (init 1) u → t = u)
    ∧ ((init 1).latch.writer_entered = true → 0 < (init 1).latch.reader_count →
        ∃ t, (init 1).tstate t = TState.draining) :=
  c1_mutual_exclusion (init 1) Reachable.init

/-- C3: `WLock` proceeds in two phases.  A thread in the first wait loop is
admitted exactly when no writer is active (and only from that loop), at
which point no other thread is an active writer and `writer_entered_`
becomes true with the thread in the drain phase; a thread in the drain loop
returns exactly when the reader count is `0`, and at the moment `WLock`
returns the reader count is `0`. -/
theorem c3_wlock_two_phase {n : Nat} (c : Config n) (h : Reachable c) :
    (∀ t, c.tstate t = TState.wantWrite →
      ((∃ c', Step c (Label.enterW t) c') ↔ c.latch.writer_entered = false))
    ∧ (∀ t c', Step c (Label.enterW t) c' →
        c.tstate t = TState.wantWrite ∧ (∀ u, ¬ activeW c u)
        ∧ c'.latch.writer_entered = true ∧ c'.tstate t = TState.draining)
    ∧ (∀ t, c.tstate t = TState.draining →
      ((∃ c', Step c (Label.ownW t) c') ↔ c.latch.reader_count = 0))
    ∧ (∀ t c', Step c (Label.ownW t) c' →
        c.latch.reader_count = 0 ∧ c'.latch.reader_count = 0
        ∧ c'.tstate t = TState.writing) := by
  obtain ⟨h1, h2, h3, h4, h5, h6⟩ := reachable_inv h
  refine ⟨?_, ?_, ?_, ?_⟩
  · intro t ht
    constructor
    · rintro ⟨c', hs⟩
      exact (step_enterW_inv hs).2.1
    · intro hwe
      exact ⟨_, Step.enterW t ht hwe⟩
  · intro t c' hs
    obtain ⟨ht, hwe, hc⟩ := step_enterW_inv hs
    refine ⟨ht, h3 hwe, ?_, ?_⟩
    · rw [hc, latch_mk, wlockSetWriter_writer]
    · rw [hc, tstate_mk, Function.update_same]
  · intro t ht
    constructor
    · rintro ⟨c', hs⟩
      exact (step_ownW_inv hs).2.1
    · intro hrc
      refine ⟨_, Step.ownW t ht ?_⟩
      rw [wlockBlocked2, hrc]
      decide
  · intro t c' hs
    obtain ⟨ht, hrc, hc⟩ := step_ownW_inv hs
    refine ⟨hrc, ?_, ?_⟩
    · rw [hc, latch_mk]
      exact hrc
    · rw [hc, tstate_mk, Function.update_same]

/-- Witness for C3 at the initial configuration. -/
theorem c3_wlock_two_phase_witness :
    (∀ t, (init 1).tstate t = TState.wantWrite →
      ((∃ c', Step (init 1) (Label.enterW t) c') ↔
        (init 1).latch.writer_entered = false))
    ∧ (∀ t c', Step (init 1) (Label.enterW t) c' →
        (init 1).tstate t = TState.wantWrite ∧ (∀ u, ¬ activeW (init 1) u)
        ∧ c'.latch.writer_entered = true ∧ c'.tstate t = TState.draining)
    ∧ (∀ t, (init 1).tstate t = TState.draining →
      ((∃ c', Step (init 1) (Label.ownW t) c') ↔ (init 1).latch.reader_count = 0))
    ∧ (∀ t c', Step (init 1) (Label.ownW t) c' →
        (init 1).latch.reader_count = 0 ∧ c'.latch.reader_count = 0
        ∧ c'.tstate t = TState.writing) :=
  c3_wlock_two_phase (init 1) Reachable.init

/-- C4: a thread in `RLock`'s wait loop is admitted exactly when no writer
is active and the reader count is not at the `MAX_READERS` sentinel; being
admitted increments the reader count by exactly one and the thread holds a
read latch; and a configuration with two threads simultaneously holding
read latches is reachable. -/
theorem c4_rlock_admission {n : Nat} (c : Config n) (h : Reachable c) :
    (∀ t, c.tstate t = TState.wantRead →
      ((∃ c', Step c (Label.enterR t) c') ↔
        (c.latch.writer_entered = false ∧ c.latch.reader_count ≠ MAX_READERS)))
    ∧ (∀ t c', Step c (Label.enterR t) c' →
        c'.latch.reader_count = c.latch.reader_count + 1
        ∧ c'.tstate t = TState.reading)
    ∧ ∃ c2 : Config 2, Reachable c2 ∧ (readersOf c2).card = 2
        ∧ c2.latch.reader_count = 2 := by
  obtain ⟨h1, h2, h3, h4, h5, h6⟩ := reachable_inv h
  refine ⟨?_, ?_, ?_⟩
  · intro t ht
    constructor
    · rintro ⟨c', hs⟩
      exact (rlockBlocked_false_iff c.latch).mp (step_enterR_inv hs).2.1
    · intro hok
      exact ⟨_, Step.enterR t ht ((rlockBlocked_false_iff c.latch).mpr hok)⟩
  · intro t c' hs
    obtain ⟨ht, hg, hc⟩ := step_enterR_inv hs
    obtain ⟨hwe, hne⟩ := (rlockBlocked_false_iff c.latch).mp hg
    have hlt : c.latch.reader_count + 1 < 2 ^ 32 := by
      have := hne; rw [MAX_READERS] at this; omega
    constructor
    · rw [hc, latch_mk, rlockEnter_count]
      exact inc32 _ hlt
    · rw [hc, tstate_mk, Function.update_same]
  · have s1 : Step (init 2) (Label.startR 0) rcfg1 := Step.startR 0 rfl
    have s2 : Step rcfg1 (Label.enterR 0) rcfg2 := Step.enterR 0 rfl (by decide)
    have s3 : Step rcfg2 (Label.startR 1) rcfg3 := Step.startR 1 rfl
    have s4 : Step rcfg3 (Label.enterR 1) rcfg4 := Step.enterR 1 rfl (by decide)
    refine ⟨rcfg4, ?_, by decide, by decide⟩
    exact Reachable.step (Reachable.step (Reachable.step
      (Reachable.step Reachable.init s1) s2) s3) s4

/-- Witness for C4 at the initial configuration. -/
theorem c4_rlock_admission_witness :
    (∀ t, (init 1).tstate t = TState.wantRead →
      ((∃ c', Step (init 1) (Label.enterR t) c') ↔
        ((init 1).latch.writer_entered = false
         ∧ (init 1).latch.reader_count ≠ MAX_READERS)))
    ∧ (∀ t c', Step (init 1) (Label.enterR t) c' →
        c'.latch.reader_count = (init 1).latch.reader_count + 1
        ∧ c'.tstate t = TState.reading)
    ∧ ∃ c2 : Config 2, Reachable c2 ∧ (readersOf c2).card = 2
        ∧ c2.latch.reader_count = 2 :=
  c4_rlock_admission (init 1) Reachable.init

/-- C7: starting from the idle latch, `N` read admissions followed by `N`
read releases restore the initial latch state; along the way every
admission finds `RLock`'s wait condition false; from the restored state a
`WLock` passes both wait conditions at once (it blocks nowhere); and a full
`WLock`/`WUnlock` cycle from idle also restores the initial state. -/
theorem c7_release_balance (N : Nat) (hN : N ≤ MAX_READERS) :
    runlockState^[N] (rlockEnter^[N] initLatch) = initLatch
    ∧ (∀ k, k < N → rlockBlocked (rlockEnter^[k] initLatch) = false)
    ∧ wlockBlocked1 initLatch = false
    ∧ wlockBlocked2 (wlockSetWriter initLatch) = false
    ∧ (WUnlock (wlockSetWriter initLatch)).1 = initLatch := by
  have hN32 : N < 2 ^ 32 := by
    have := hN; rw [MAX_READERS] at this; omega
  refine ⟨?_, ?_, rfl, by decide, rfl⟩
  · rw [rlock_iter N hN, runlock_iter N N le_rfl hN32]
    simp [initLatch]
  · intro k hk
    have hkM : k ≤ MAX_READERS := le_trans (Nat.le_of_lt hk) hN
    rw [rlock_iter k hkM, rlockBlocked_false_iff]
    refine ⟨rfl, ?_⟩
    show k ≠ MAX_READERS
    rw [MAX_READERS]
    rw [MAX_READERS] at hN
    omega

/-- Witness for C7 at three readers. -/
theorem c7_release_balance_witness :
    3 ≤ MAX_READERS
    ∧ (runlockState^[3] (rlockEnter^[3] initLatch) = initLatch
       ∧ (∀ k, k < 3 → rlockBlocked (rlockEnter^[k] initLatch) = false)
       ∧ wlockBlocked1 initLatch = false
       ∧ wlockBlocked2 (wlockSetWriter initLatch) = false
       ∧ (WUnlock (wlockSetWriter initLatch)).1 = initLatch) :=
  ⟨by decide, c7_release_balance 3 (by decide)⟩

/-- C2: writer preference.  Along any stepped execution, once a writer `w`
has set `writer_entered_` (passing `WLock`'s first loop) and as long as no
`WUnlock` has happened, no thread passes `RLock`'s wait loop - so no reader
arriving after the announcement is admitted, and the writer waits only for
the readers already holding the latch; moreover `writer_entered_` stays set
with `w` the active writer, and the first `WUnlock` ending the interval can
only be performed by `w` itself. -/
theorem c2_writer_preference {n : Nat}
    (cfg : Nat → Config n) (lbl : Nat → Label n) (i j : Nat) (w : Fin n)
    (h0 : Reachable (cfg 0))
    (hsteps : ∀ k, k ≤ j → Step (cfg k) (lbl k) (cfg (k + 1)))
    (hij : i < j)
    (hw : lbl i = Label.enterW w)
    (hnorel : ∀ k, i < k → k < j → ∀ u : Fin n, lbl k ≠ Label.exitW u) :
    (∀ k, i < k → k < j → ∀ t : Fin n, lbl k ≠ Label.enterR t)
    ∧ (∀ k, i < k → k ≤ j →
        (cfg k).latch.writer_entered = true ∧ activeW (cfg k) w)
    ∧ (∀ u : Fin n, lbl j = Label.exitW u → u = w) := by
  have key : ∀ k, i + 1 ≤ k → k ≤ j →
      (cfg k).latch.writer_entered = true ∧ activeW (cfg k) w := by
    intro k
    induction k with
    | zero => intro h1 _; exact absurd h1 (by omega)
    | succ m ih =>
        intro h1 h2
        by_cases hm : i + 1 ≤ m
        · have hmj : m < j := by omega
          obtain ⟨hwe, hact⟩ := ih hm (by omega)
          have hs := hsteps m (by omega)
          have hna : ∀ u, lbl m ≠ Label.exitW u := fun u => hnorel m (by omega) hmj u
          exact ⟨writer_persists hs hwe hna, active_persists hs hact hna⟩
        · have hmi : m = i := by omega
          subst hmi
          have hs := hsteps m (by omega)
          rw [hw] at hs
          obtain ⟨ht, hwe0, hc⟩ := step_enterW_inv hs
          rw [hc]
          constructor
          · rw [latch_mk, wlockSetWriter_writer]
          · rw [activeW_update, if_pos rfl]
            left; rfl
  refine ⟨?_, fun k hik hkj => key k (by omega) hkj, ?_⟩
  · intro k hik hkj t heq
    have hs := hsteps k (by omega)
    rw [heq] at hs
    obtain ⟨_, hg, _⟩ := step_enterR_inv hs
    obtain ⟨hwe0, _⟩ := (rlockBlocked_false_iff _).mp hg
    obtain ⟨hwe, _⟩ := key k (by omega) (by omega)
    rw [hwe0] at hwe
    cases hwe
  · intro u hju
    have hs := hsteps j le_rfl
    rw [hju] at hs
    obtain ⟨htu, _⟩ := step_exitW_inv hs
    obtain ⟨_, hact⟩ := key j (by omega) le_rfl
    have hreach : Reachable (cfg j) :=
      reachable_along h0 (fun k hk => hsteps k (by omega)) j le_rfl
    obtain ⟨_, _, _, _, h5, _⟩ := reachable_inv hreach
    exact h5 u w (Or.inr htu) hact

/-- Witness for C2 along the concrete execution `execCfg`. -/
theorem c2_writer_preference_witness :
    (∀ k, 1 < k → k < 2 → ∀ t : Fin 1, execLbl k ≠ Label.enterR t)
    ∧ (∀ k, 1 < k → k ≤ 2 →
        (execCfg k).latch.writer_entered = true ∧ activeW (execCfg k) 0)
    ∧ (∀ u : Fin 1, execLbl 2 = Label.exitW u → u = 0) :=
  c2_writer_preference execCfg execLbl 1 2 0 Reachable.init
    (by
      intro k hk
      interval_cases k
      · exact Step.startW 0 rfl
      · exact Step.enterW 0 rfl rfl
      · exact Step.ownW 0 rfl (by decide))
    (by omega) rfl
    (by intro k hk1 hk2 u heq; omega)

/-- One-step preservation of the lifecycle invariant of claim C8. -/
lemma lifeInvStep {c c' : LifeConfig} (hs : LifeStep c c')
    (_ih1 : c.destroyed = true → c.releaserInCS = false)
    (ih2 : c.releaserInCS = true → c.mutexHolder = some Holder.releaser) :
    (c'.destroyed = true → c'.releaserInCS = false)
    ∧ (c'.releaserInCS = true → c'.mutexHolder = some Holder.releaser) := by
  cases hs with
  | releaserAcquire h1 h2 => exact ⟨fun hd => (nomatch hd), fun _ => rfl⟩
  | releaserRelease h1 => exact ⟨fun _ => rfl, fun hcs => nomatch hcs⟩
  | dtorRun h1 =>
      constructor
      · intro _
        show c.releaserInCS = false
        cases hcs : c.releaserInCS
        · rfl
        · have hh := ih2 hcs
          rw [hh] at h1
          cases h1
      · intro hcs
        have hh := ih2 (show c.releaserInCS = true from hcs)
        rw [hh] at h1
        cases h1

/-- C8: in the lifecycle model of the destructor
`~ReaderWriterLatch() { std::lock_guard<mutex_t> guard(mutex_); }`, no
reachable state has the object destroyed while a release call is inside its
mutex-guarded critical section: the destructor's acquisition of `mutex_`
blocks until no other thread holds the internal lock. -/
theorem c8_dtor_blocks (c : LifeConfig) (h : LifeReachable c) :
    (c.destroyed = true → c.releaserInCS = false)
    ∧ (c.releaserInCS = true → c.mutexHolder = some Holder.releaser) := by
  induction h with
  | init => exact ⟨fun _ => rfl, fun hcs => nomatch hcs⟩
  | step hr hs ih => exact lifeInvStep hs ih.1 ih.2

/-- Witness for C8 at a reachable destroyed state. -/
theorem c8_dtor_blocks_witness :
    (c8cfg.destroyed = true → c8cfg.releaserInCS = false)
    ∧ (c8cfg.releaserInCS = true → c8cfg.mutexHolder = some Holder.releaser) :=
  c8_dtor_blocks c8cfg (LifeReachable.step LifeReachable.init (LifeStep.dtorRun rfl))

end RWLatch
